import Mathlib

/-!
Verification of the Blockwright landscape/building application.

The development shallowly embeds the two source modules:

* `js/app.js` — block world (`placeBlock`, `removeBlock`, `clearAllBlocks`,
  `generate`), the blueprint system (`rotateBlocksCW`, `getRotatedBlocks`,
  `placeBlueprint`, `cancelBlueprint`), the AI-structure ingestion
  (`generateStructure`) and the seed input (`applySeedInput`).
* `js/terrain.js` — the height field (`fbm`, `sampleHeight`), the scatter
  passes (`createTrees`, `createRocks`, `createFlowers`) and the voxelizer
  (`blockifyTerrain`, modelled per column by `blockifyColumn`).

JavaScript numbers are modelled by exact rationals where the program only
performs field operations on literals, and by real numbers where the program
uses `Math.sqrt` and fractional `Math.pow`.  The simplex-noise function and
the mulberry32 random stream are kept as parameters, exactly as the source
passes them around (`noise2D`, `rng`); hypotheses record their documented
ranges (noise in [-1,1], rng in [0,1)).
-/

/-! ## Block world (app.js)

The `placedBlocks` map keyed by the string `"x,y,z"` is modelled as an
association list keyed by the rational coordinate triple; the string key is
injective on numeric triples, so the association list has the same
lookup/insert semantics. -/

abbrev Cell : Type := ℚ × ℚ × ℚ

abbrev World : Type := List (Cell × ℤ)

/-- Association-list lookup, modelling `placedBlocks.get`/`has`. -/
def wLookup : World → Cell → Option ℤ
  | [], _ => none
  | (k, m) :: rest, c => if c = k then some m else wLookup rest c

/-- One blueprint block `{x, y, z, type}` as validated from the external
service (app.js `generateStructure`): integer coordinates, integer type. -/
structure BBlock where
  x : ℤ
  y : ℤ
  z : ℤ
  type : ℤ
deriving DecidableEq

/-- The mutable application state touched by the block/blueprint system:
`placedBlocks` (as `world`), `selectedSlot`, and the blueprint globals of
app.js. -/
structure AppState where
  world : World
  selectedSlot : ℤ
  blueprintActive : Bool
  blueprintBlocks : List BBlock
  blueprintRotation : ℕ
  blueprintOrigin : Cell
  currentSeed : ℤ
deriving DecidableEq

/-- app.js `placeBlock(gx, gy, gz)`: no-op when the cell is occupied,
otherwise inserts a block with the currently selected material. -/
def placeBlock (s : AppState) (gx gy gz : ℚ) : AppState :=
  if (wLookup s.world (gx, gy, gz)).isSome then s
  else { s with world := ((gx, gy, gz), s.selectedSlot) :: s.world }

/-- app.js `clearAllBlocks()`. -/
def clearAllBlocks (s : AppState) : AppState := { s with world := [] }

/-- app.js `generate(seed)` restricted to the modelled state: it stores the
seed, disposes the landscape (not modelled) and calls `clearAllBlocks()`
before building the new landscape. -/
def generate (s : AppState) (seed : ℤ) : AppState :=
  { clearAllBlocks s with currentSeed := seed }

/-! ## Blueprint rotation and commit (app.js) -/

/-- app.js `rotateBlocksCW`: one 90-degree clockwise step
`(x, z) -> (-z, x)`. -/
def rotateBlocksCW (blocks : List BBlock) : List BBlock :=
  blocks.map fun b => { x := -b.z, y := b.y, z := b.x, type := b.type }

/-- app.js `getRotatedBlocks`: apply the clockwise step `rot` times. -/
def getRotatedBlocks (blocks : List BBlock) (rot : ℕ) : List BBlock :=
  rotateBlocksCW^[rot] blocks

/-- app.js `cancelBlueprint()`: deactivate and drop the blueprint state. -/
def cancelBlueprint (s : AppState) : AppState :=
  if s.blueprintActive then
    { s with blueprintActive := false, blueprintBlocks := [], blueprintRotation := 0 }
  else s

/-- app.js `placeBlueprint()`: stamp every rotated block at
`origin + offset + 0.5` per axis, temporarily overriding `selectedSlot`
with the block's own type, then restore the saved slot and cancel. -/
def placeBlueprint (s : AppState) : AppState :=
  if s.blueprintActive then
    let rotated := getRotatedBlocks s.blueprintBlocks s.blueprintRotation
    let origin := s.blueprintOrigin
    let saved := s.selectedSlot
    let s2 := rotated.foldl
      (fun st b =>
        placeBlock { st with selectedSlot := b.type }
          (origin.1 + (b.x : ℚ) + 1/2) (origin.2.1 + (b.y : ℚ) + 1/2)
          (origin.2.2 + (b.z : ℚ) + 1/2)) s
    cancelBlueprint { s2 with selectedSlot := saved }
  else s

/-! ## Theorems for claims C1, C2, C7, C10 -/

/-- Claim C2: applying the 90-degree-clockwise blueprint rotation step four
times returns a list element-wise identical to the original, with exact
integer equality per offset; equivalently `getRotatedBlocks` at rotation 4
is the identity. -/
theorem rotateBlocksCW_four_identity (blocks : List BBlock) :
    rotateBlocksCW (rotateBlocksCW (rotateBlocksCW (rotateBlocksCW blocks))) = blocks
    ∧ getRotatedBlocks blocks 4 = blocks := by
  have h : ∀ bs : List BBlock,
      rotateBlocksCW (rotateBlocksCW (rotateBlocksCW (rotateBlocksCW bs))) = bs := by
    intro bs
    induction bs with
    | nil => rfl
    | cons b t ih =>
      simp only [rotateBlocksCW, List.map_cons] at ih ⊢
      simp only [neg_neg] at ih ⊢
      exact congrArg₂ List.cons rfl ih
  refine ⟨h blocks, ?_⟩
  show rotateBlocksCW^[4] blocks = blocks
  rw [show (4 : ℕ) = 3 + 1 from rfl, Function.iterate_succ_apply',
    show (3 : ℕ) = 2 + 1 from rfl, Function.iterate_succ_apply',
    show (2 : ℕ) = 1 + 1 from rfl, Function.iterate_succ_apply',
    Function.iterate_one]
  exact h blocks

/-- Claim C7: placing into an already-occupied cell never overwrites.
Starting from a world where cell `(cx, cy, cz)` is free, placing material
`m1` there and then immediately placing `m2` with a different selected slot
leaves `m1` in the cell, and the second call changes no cell at all. -/
theorem placeBlock_first_write_wins
    (w : World) (cx cy cz : ℚ) (m1 m2 : ℤ)
    (bp : List BBlock) (rot : ℕ) (o : Cell) (sd : ℤ)
    (hfree : wLookup w (cx, cy, cz) = none) :
    wLookup (placeBlock
        { placeBlock ⟨w, m1, false, bp, rot, o, sd⟩ cx cy cz with selectedSlot := m2 }
        cx cy cz).world (cx, cy, cz) = some m1
    ∧ (placeBlock
        { placeBlock ⟨w, m1, false, bp, rot, o, sd⟩ cx cy cz with selectedSlot := m2 }
        cx cy cz).world
      = (placeBlock ⟨w, m1, false, bp, rot, o, sd⟩ cx cy cz).world
    ∧ ∀ c : Cell, c ≠ (cx, cy, cz) →
        wLookup (placeBlock
          { placeBlock ⟨w, m1, false, bp, rot, o, sd⟩ cx cy cz with selectedSlot := m2 }
          cx cy cz).world c = wLookup w c := by
  have h1 : placeBlock ⟨w, m1, false, bp, rot, o, sd⟩ cx cy cz
      = { (⟨w, m1, false, bp, rot, o, sd⟩ : AppState) with
          world := (((cx, cy, cz), m1)) :: w } := by
    simp [placeBlock, hfree]
  have h2 : wLookup ((((cx, cy, cz), m1)) :: w) (cx, cy, cz) = some m1 := by
    simp [wLookup]
  have h3 : placeBlock
      { placeBlock ⟨w, m1, false, bp, rot, o, sd⟩ cx cy cz with selectedSlot := m2 }
      cx cy cz
      = { placeBlock ⟨w, m1, false, bp, rot, o, sd⟩ cx cy cz with selectedSlot := m2 } := by
    rw [h1]
    simp [placeBlock, h2]
  refine ⟨?_, ?_, ?_⟩
  · rw [h3, h1]
    exact h2
  · rw [h3, h1]
  · intro c hc
    rw [h3, h1]
    simp only [wLookup]
    rw [if_neg hc]

/-- Witness for C7 at a concrete world: cell `(5.5, 3.5, 5.5)` free in the
empty world, materials 0 then 2. -/
theorem placeBlock_first_write_wins_witness :
    wLookup (placeBlock
        { placeBlock ⟨[], 0, false, [], 0, (0, 0, 0), 0⟩ (11/2) (7/2) (11/2) with
          selectedSlot := 2 }
        (11/2) (7/2) (11/2)).world (11/2, 7/2, 11/2) = some 0 :=
  (placeBlock_first_write_wins [] (11/2) (7/2) (11/2) 0 2 [] 0 (0, 0, 0) 0 rfl).1

/-- Claim C10: committing a blueprint restores the saved hotbar slot, so
`selectedSlot` after `placeBlueprint` equals `selectedSlot` before it. -/
theorem placeBlueprint_preserves_selectedSlot (s : AppState) :
    (placeBlueprint s).selectedSlot = s.selectedSlot := by
  have hc : ∀ t : AppState, (cancelBlueprint t).selectedSlot = t.selectedSlot := by
    intro t
    unfold cancelBlueprint
    split <;> rfl
  unfold placeBlueprint
  split
  · rw [hc]
  · rfl

/-- Counterexample for claim C1 as stated: place a block of material 2 at
cell `(5.5, 3.5, 5.5)`, then regenerate with seed 99.  The block is gone
(`generate` calls `clearAllBlocks`), contradicting "every previously placed
block is still present with the same cell and material". -/
theorem generate_does_not_preserve_blocks :
    wLookup (placeBlock
        ⟨[], 2, false, [], 0, (0, 0, 0), 0⟩ (11/2) (7/2) (11/2)).world
        (11/2, 7/2, 11/2) = some 2
    ∧ wLookup (generate
        (placeBlock ⟨[], 2, false, [], 0, (0, 0, 0), 0⟩ (11/2) (7/2) (11/2)) 99).world
        (11/2, 7/2, 11/2) = none := by
  constructor
  · simp [placeBlock, wLookup]
  · simp [generate, clearAllBlocks, wLookup]

/-- Claim C1 as amended: regeneration clears the Block World.  After
`generate(seed)` no cell holds any block: `generate` disposes the landscape
and calls `clearAllBlocks`, so the block store is empty. -/
theorem generate_clears_block_world (s : AppState) (seed : ℤ) :
    (generate s seed).world = [] ∧ ∀ c : Cell, wLookup (generate s seed).world c = none := by
  refine ⟨rfl, fun c => ?_⟩
  simp [generate, clearAllBlocks, wLookup]

/-! ## AI-structure ingestion (app.js `generateStructure`)

The network layer and `JSON.parse` are external; the parse outcome is the
parameter `parsed : Option (List RawBlock)` — `none` covers an HTTP error, a
response that none of the three extraction strategies (direct parse, fenced
block, bracket-delimited substring) could parse, and a parse result that is
not an array.  The response `"not json"` (no bracket, not valid JSON, no
fence) is such a `none`.  The validation loop itself is modelled exactly. -/

/-- One raw entry of the parsed block list.  A field is `none` when the JSON
value is absent or not a number (`typeof b.x !== 'number'`). -/
structure RawBlock where
  x : Option ℚ
  y : Option ℚ
  z : Option ℚ
  type : Option ℚ

/-- JavaScript `Math.round`: round half toward positive infinity. -/
def jsRound (q : ℚ) : ℤ := ⌊q + 1/2⌋

/-- Material validation: `typeof b.type === 'number' ?
Math.max(0, Math.min(5, Math.round(b.type))) : 2`. -/
def clampType : Option ℚ → ℤ
  | some t => max 0 (min 5 (jsRound t))
  | none => 2

/-- A raw entry passes validation iff all three coordinates are numbers;
coordinates are rounded to integers and the material id clamped. -/
def validOf (b : RawBlock) : Option BBlock :=
  match b.x, b.y, b.z with
  | some bx, some yv, some zv =>
      some ⟨jsRound bx, jsRound yv, jsRound zv, clampType b.type⟩
  | _, _, _ => none

/-- The validation loop of `generateStructure`: skip invalid entries, push
valid ones, break once 500 entries have been kept. -/
def validateLoop : List RawBlock → ℕ → List BBlock
  | [], _ => []
  | b :: rest, n =>
    match validOf b with
    | none => validateLoop rest n
    | some v => if 500 ≤ n + 1 then [v] else v :: validateLoop rest (n + 1)

def validateBlocks (bs : List RawBlock) : List BBlock := validateLoop bs 0

/-- app.js `generateStructure` after the fetch: reject when parsing failed
or gave a non-array (`parsed = none`), when the array is empty, or when no
valid entries remain; otherwise return the validated list. -/
def generateStructure (parsed : Option (List RawBlock)) : Option (List BBlock) :=
  match parsed with
  | none => none
  | some blocks =>
    if blocks.isEmpty then none
    else
      let validated := validateBlocks blocks
      if validated.isEmpty then none else some validated

/-- The valid entries surviving ingestion (empty when parsing failed). -/
def validEntries : Option (List RawBlock) → List BBlock
  | none => []
  | some bs => validateBlocks bs

/-- app.js `activateBlueprint(blocks)` restricted to the modelled state. -/
def activateBlueprint (s : AppState) (bs : List BBlock) : AppState :=
  { s with blueprintActive := true, blueprintBlocks := bs, blueprintRotation := 0 }

/-- The Build-button handler: `generateStructure` then, only on success,
`activateBlueprint`.  No `placeBlock` call happens on this path. -/
def handleAiBuild (s : AppState) (parsed : Option (List RawBlock)) : AppState :=
  match generateStructure parsed with
  | none => s
  | some bs => activateBlueprint s bs

lemma validateLoop_length (bs : List RawBlock) :
    ∀ n : ℕ, n < 500 → (validateLoop bs n).length ≤ 500 - n := by
  induction bs with
  | nil => intro n _; simp [validateLoop]
  | cons b rest ih =>
    intro n hn
    unfold validateLoop
    cases hv : validOf b with
    | none => exact ih n hn
    | some v =>
      by_cases h5 : 500 ≤ n + 1
      · simp only [if_pos h5, List.length_cons, List.length_nil]
        omega
      · simp only [if_neg h5, List.length_cons]
        have := ih (n + 1) (by omega)
        omega

lemma validateLoop_mem (bs : List RawBlock) :
    ∀ n : ℕ, ∀ v ∈ validateLoop bs n, ∃ b ∈ bs, validOf b = some v := by
  induction bs with
  | nil => intro n v hv; simp [validateLoop] at hv
  | cons b rest ih =>
    intro n v hv
    cases hb : validOf b with
    | none =>
      simp only [validateLoop, hb] at hv
      obtain ⟨b', hb', hvb'⟩ := ih n v hv
      exact ⟨b', List.mem_cons_of_mem _ hb', hvb'⟩
    | some w =>
      simp only [validateLoop, hb] at hv
      by_cases h5 : 500 ≤ n + 1
      · rw [if_pos h5] at hv
        simp only [List.mem_singleton] at hv
        exact ⟨b, List.mem_cons_self _ _, by rw [hb, hv]⟩
      · rw [if_neg h5] at hv
        rcases List.mem_cons.mp hv with h | h
        · exact ⟨b, List.mem_cons_self _ _, by rw [hb, h]⟩
        · obtain ⟨b', hb', hvb'⟩ := ih (n + 1) v h
          exact ⟨b', List.mem_cons_of_mem _ hb', hvb'⟩

lemma validOf_type_range (b : RawBlock) (v : BBlock) (h : validOf b = some v) :
    0 ≤ v.type ∧ v.type ≤ 5 := by
  unfold validOf at h
  cases hx : b.x <;> cases hy : b.y <;> cases hz : b.z <;>
    simp [hx, hy, hz] at h
  rw [← h]
  unfold clampType
  cases b.type with
  | none => norm_num
  | some t =>
    constructor
    · exact le_max_left 0 _
    · exact max_le (by norm_num) (min_le_left 5 _)

/-- Claim C5: ingestion validation.  Every accepted entry comes from a raw
entry with numeric coordinates, has integer coordinates (the type `BBlock`
stores `ℤ`) and a material id in [0,5]; at most 500 entries are kept; total
failure is signalled exactly when zero valid entries remain (this covers an
unparseable response such as `"not json"`, which parses to `none`); on any
rejection the Build handler leaves the whole state — in particular the
Block World — unchanged, and even on success the Block World is untouched
because only the blueprint ghost is activated. -/
theorem generateStructure_validation (parsed : Option (List RawBlock)) (s : AppState) :
    (∀ bs, generateStructure parsed = some bs →
      bs.length ≤ 500 ∧ bs ≠ [] ∧
      ∀ v ∈ bs, (0 ≤ v.type ∧ v.type ≤ 5) ∧ ∃ b ∈ parsed.getD [], validOf b = some v)
    ∧ (generateStructure parsed = none ↔ validEntries parsed = [])
    ∧ (handleAiBuild s parsed).world = s.world
    ∧ (generateStructure parsed = none → handleAiBuild s parsed = s) := by
  have hmain : ∀ bs, generateStructure parsed = some bs →
      bs.length ≤ 500 ∧ bs ≠ [] ∧
      ∀ v ∈ bs, (0 ≤ v.type ∧ v.type ≤ 5) ∧ ∃ b ∈ parsed.getD [], validOf b = some v := by
    intro bs hbs
    cases parsed with
    | none => simp [generateStructure] at hbs
    | some blocks =>
      simp only [generateStructure] at hbs
      by_cases hemp : blocks.isEmpty
      · rw [if_pos hemp] at hbs; exact absurd hbs (by simp)
      · rw [if_neg hemp] at hbs
        by_cases hvemp : (validateBlocks blocks).isEmpty
        · rw [if_pos hvemp] at hbs; exact absurd hbs (by simp)
        · rw [if_neg hvemp] at hbs
          have hbs' : bs = validateBlocks blocks := by
            exact (Option.some.injEq _ _ ▸ hbs).symm
          subst hbs'
          refine ⟨?_, ?_, ?_⟩
          · have := validateLoop_length blocks 0 (by norm_num)
            simpa [validateBlocks] using this
          · intro hnil
            rw [hnil] at hvemp
            simp at hvemp
          · intro v hv
            obtain ⟨b, hb, hvb⟩ := validateLoop_mem blocks 0 v hv
            exact ⟨validOf_type_range b v hvb, b, by simpa using hb, hvb⟩
  refine ⟨hmain, ?_, ?_, ?_⟩
  · cases parsed with
    | none => simp [generateStructure, validEntries]
    | some blocks =>
      simp only [generateStructure, validEntries]
      by_cases hemp : blocks.isEmpty
      · have : blocks = [] := List.isEmpty_iff.mp hemp
        subst this
        simp [validateBlocks, validateLoop]
      · rw [if_neg hemp]
        by_cases hvemp : (validateBlocks blocks).isEmpty
        · rw [if_pos hvemp]
          simpa [List.isEmpty_iff] using hvemp
        · rw [if_neg hvemp]
          simp [List.isEmpty_iff] at hvemp
          simp [hvemp]
  · unfold handleAiBuild
    cases generateStructure parsed with
    | none => rfl
    | some bs => rfl
  · intro hnone
    unfold handleAiBuild
    rw [hnone]

/-! ## Seed input hashing (app.js `applySeedInput`) -/

/-- JavaScript 32-bit wrap (`| 0`): reduce into `[-2^31, 2^31)`. -/
def toInt32 (n : ℤ) : ℤ := (n + 2147483648) % 4294967296 - 2147483648

/-- One step of the rolling hash as written in the source:
`hash = ((hash << 5) - hash + charCode) | 0`.  The shift is itself a 32-bit
operation, the subtraction and addition are exact. -/
def hashStep (h : ℤ) (c : ℕ) : ℤ := toInt32 (toInt32 (h * 32) - h + c)

/-- The rolling hash over the seed string's character codes. -/
def hashString (cs : List ℕ) : ℤ := cs.foldl hashStep 0

/-- app.js `applySeedInput` reduced to the seed value passed to `generate`:
`parsed` is the result of `parseInt` (`none` when it yields `NaN`), `cs`
the character codes of the trimmed input. -/
def applySeedInput (parsed : Option ℤ) (cs : List ℕ) : ℤ :=
  match parsed with
  | some n => n
  | none => |hashString cs|

lemma hashStep_eq_spec (h : ℤ) (c : ℕ) : hashStep h c = toInt32 (h * 31 + c) := by
  unfold hashStep toInt32
  omega

/-- Claim C8: when the seed input does not parse as an integer, the seed is
the absolute value of the rolling hash `hash = hash*31 + charCode` in
32-bit wrapping arithmetic, and the result is non-negative for every
input string. -/
theorem applySeedInput_hash (cs : List ℕ) :
    applySeedInput none cs = |cs.foldl (fun (h : ℤ) (c : ℕ) => toInt32 (h * 31 + (c : ℤ))) 0|
    ∧ 0 ≤ applySeedInput none cs := by
  have hfun : hashStep = fun (h : ℤ) (c : ℕ) => toInt32 (h * 31 + (c : ℤ)) := by
    funext h c
    exact hashStep_eq_spec h c
  constructor
  · show |hashString cs| = _
    rw [hashString, hfun]
  · exact abs_nonneg _

/-! ## Height field (terrain.js `fbm`, `sampleHeight`)

The simplex-noise function is a parameter (`noise2D` in the source); float
arithmetic is idealized over the reals, with `Math.pow(h, 1.8)` as the real
power and `Math.sqrt` as the real square root. -/

/-- The loop state of terrain.js `fbm`: (value, amplitude, frequency, max),
after the given number of octaves. -/
noncomputable def fbmLoop (noise : ℝ → ℝ → ℝ) (x z lacunarity gain : ℝ) :
    ℕ → ℝ × ℝ × ℝ × ℝ
  | 0 => (0, 1, 1, 0)
  | i + 1 =>
    let p := fbmLoop noise x z lacunarity gain i
    (p.1 + p.2.1 * noise (x * p.2.2.1) (z * p.2.2.1),
     p.2.1 * gain, p.2.2.1 * lacunarity, p.2.2.2 + p.2.1)

/-- terrain.js `fbm`: octave sum normalized by the amplitude sum. -/
noncomputable def fbm (noise : ℝ → ℝ → ℝ) (x z : ℝ) (octaves : ℕ)
    (lacunarity gain : ℝ) : ℝ :=
  (fbmLoop noise x z lacunarity gain octaves).1
    / (fbmLoop noise x z lacunarity gain octaves).2.2.2

/-- terrain.js `sampleHeight`: fBm remapped to [0,1], contrast power 1.8,
island falloff `max(0, 1 - dist^3)`. -/
noncomputable def sampleHeight (noise : ℝ → ℝ → ℝ) (x z halfSize : ℝ) : ℝ :=
  let scale : ℝ := 0.015
  let dx := x / halfSize
  let dz := z / halfSize
  let dist := Real.sqrt (dx * dx + dz * dz)
  let falloff := max 0 (1 - dist ^ (3 : ℕ))
  let h1 := fbm noise (x * scale) (z * scale) 3 2 0.5
  let h2 := (h1 + 1) / 2
  let h3 := h2 ^ (1.8 : ℝ)
  h3 * falloff

lemma fbm3_bound (noise : ℝ → ℝ → ℝ) (x z : ℝ)
    (hb : ∀ a b : ℝ, -1 ≤ noise a b ∧ noise a b ≤ 1) :
    -1 ≤ fbm noise x z 3 2 0.5 ∧ fbm noise x z 3 2 0.5 ≤ 1 := by
  obtain ⟨a1, b1⟩ := hb (x * 1) (z * 1)
  obtain ⟨a2, b2⟩ := hb (x * (1 * 2)) (z * (1 * 2))
  obtain ⟨a3, b3⟩ := hb (x * (1 * 2 * 2)) (z * (1 * 2 * 2))
  have e : fbm noise x z 3 2 0.5
      = (0 + 1 * noise (x * 1) (z * 1)
          + 1 * 0.5 * noise (x * (1 * 2)) (z * (1 * 2))
          + 1 * 0.5 * 0.5 * noise (x * (1 * 2 * 2)) (z * (1 * 2 * 2)))
        / (0 + 1 + 1 * 0.5 + 1 * 0.5 * 0.5) := rfl
  rw [e]
  set n1 := noise (x * 1) (z * 1)
  set n2 := noise (x * (1 * 2)) (z * (1 * 2))
  set n3 := noise (x * (1 * 2 * 2)) (z * (1 * 2 * 2))
  constructor
  · rw [le_div_iff₀ (by norm_num)]
    nlinarith
  · rw [div_le_one (by norm_num)]
    nlinarith

/-- Shared fact: once the normalized squared distance reaches 1, the island
falloff vanishes and the sampled height is exactly 0. -/
lemma sampleHeight_zero_of_far (noise : ℝ → ℝ → ℝ) (x z halfSize : ℝ)
    (h : 1 ≤ x / halfSize * (x / halfSize) + z / halfSize * (z / halfSize)) :
    sampleHeight noise x z halfSize = 0 := by
  have hd : 1 ≤ Real.sqrt (x / halfSize * (x / halfSize) + z / halfSize * (z / halfSize)) := by
    rw [show (1 : ℝ) = Real.sqrt 1 by rw [Real.sqrt_one]]
    exact Real.sqrt_le_sqrt h
  have hmax : max 0
      (1 - Real.sqrt (x / halfSize * (x / halfSize) + z / halfSize * (z / halfSize)) ^ (3 : ℕ))
      = 0 := by
    apply max_eq_left
    set d := Real.sqrt (x / halfSize * (x / halfSize) + z / halfSize * (z / halfSize))
    nlinarith [sq_nonneg d, sq_nonneg (d - 1)]
  simp only [sampleHeight]
  rw [hmax, mul_zero]

/-- Claim C4: assuming the 2D noise function returns values in [-1,1], the
height function returns a value in [0,1] at every coordinate pair; as a
plain Lean function of the noise (itself a pure function of the seed) and
(x,z) it is pure and deterministic. -/
theorem sampleHeight_range (noise : ℝ → ℝ → ℝ) (x z halfSize : ℝ)
    (hb : ∀ a b : ℝ, -1 ≤ noise a b ∧ noise a b ≤ 1) :
    0 ≤ sampleHeight noise x z halfSize ∧ sampleHeight noise x z halfSize ≤ 1 := by
  obtain ⟨hf1, hf2⟩ := fbm3_bound noise (x * 0.015) (z * 0.015) hb
  have h20 : 0 ≤ (fbm noise (x * 0.015) (z * 0.015) 3 2 0.5 + 1) / 2 := by linarith
  have h21 : (fbm noise (x * 0.015) (z * 0.015) 3 2 0.5 + 1) / 2 ≤ 1 := by linarith
  have h30 : 0 ≤ ((fbm noise (x * 0.015) (z * 0.015) 3 2 0.5 + 1) / 2) ^ (1.8 : ℝ) :=
    Real.rpow_nonneg h20 _
  have h31 : ((fbm noise (x * 0.015) (z * 0.015) 3 2 0.5 + 1) / 2) ^ (1.8 : ℝ) ≤ 1 :=
    Real.rpow_le_one h20 h21 (by norm_num)
  have hd0 : 0 ≤ Real.sqrt (x / halfSize * (x / halfSize) + z / halfSize * (z / halfSize)) :=
    Real.sqrt_nonneg _
  have hfall0 : 0 ≤ max 0
      (1 - Real.sqrt (x / halfSize * (x / halfSize) + z / halfSize * (z / halfSize)) ^ (3 : ℕ)) :=
    le_max_left _ _
  have hfall1 : max 0
      (1 - Real.sqrt (x / halfSize * (x / halfSize) + z / halfSize * (z / halfSize)) ^ (3 : ℕ))
      ≤ 1 := by
    apply max_le zero_le_one
    have h3 : 0 ≤ Real.sqrt
        (x / halfSize * (x / halfSize) + z / halfSize * (z / halfSize)) ^ (3 : ℕ) :=
      pow_nonneg hd0 3
    linarith
  constructor
  · simp only [sampleHeight]
    exact mul_nonneg h30 hfall0
  · simp only [sampleHeight]
    exact mul_le_one₀ h31 hfall0 hfall1

/-- Witness for C4: the constant-zero noise function at the map center. -/
theorem sampleHeight_range_witness :
    0 ≤ sampleHeight (fun _ _ => 0) 0 0 100 ∧ sampleHeight (fun _ _ => 0) 0 0 100 ≤ 1 :=
  sampleHeight_range (fun _ _ => 0) 0 0 100 (fun _ _ => by norm_num)

/-- Claim C9: at normalized distance at least 1 from the map center the
island falloff term `max(0, 1 - r^3)` is 0, so the height is exactly 0,
regardless of the noise function. -/
theorem sampleHeight_boundary_zero (noise : ℝ → ℝ → ℝ) (x z halfSize : ℝ)
    (h : 1 ≤ Real.sqrt (x / halfSize * (x / halfSize) + z / halfSize * (z / halfSize))) :
    sampleHeight noise x z halfSize = 0 := by
  apply sampleHeight_zero_of_far
  have ht : 0 ≤ x / halfSize * (x / halfSize) + z / halfSize * (z / halfSize) :=
    add_nonneg (mul_self_nonneg _) (mul_self_nonneg _)
  have h2 := Real.sq_sqrt ht
  nlinarith

/-- Witness for C9: the point (100, 0) with half-extent 100 sits exactly on
the boundary circle, and its height is 0 for the constant-zero noise. -/
theorem sampleHeight_boundary_zero_witness :
    sampleHeight (fun _ _ => 0) 100 0 100 = 0 :=
  sampleHeight_boundary_zero (fun _ _ => 0) 100 0 100 (by
    have e : (100 : ℝ) / 100 * (100 / 100) + 0 / 100 * (0 / 100) = 1 := by norm_num
    rw [e, Real.sqrt_one])

/-! ## Voxelizer (terrain.js `blockifyTerrain`)

`blockifyTerrain` iterates integer columns `ix, iz ∈ [-halfSize, halfSize)`
with `size = 200`; the per-column body is modelled by `blockifyColumnAt`.
Entries are `(y-center, material id)`; the pushed y-centers are
`Math.floor(elevation) + 0.5` and `surfaceY - d`, so the occupied integer
cell of the surface block is `floor(elevation)`. -/

/-- Surface and fill material ids per height band, as in the voxelizer:
sand below 0.15, grass over dirt up to 0.45, stone above. -/
noncomputable def surfFill (h : ℝ) : ℕ × ℕ :=
  if h < 0.15 then (4, 4) else if h < 0.45 then (1, 0) else (2, 2)

/-- The fill loop `for (d = 1; d < DEPTH; d++)` with its early `break` when
`surfaceY - d` drops below 0; `rem` counts the remaining iterations. -/
noncomputable def blockFills (surfaceY : ℝ) (fillT : ℕ) : ℕ → ℕ → List (ℝ × ℕ)
  | 0, _ => []
  | rem + 1, d =>
    if surfaceY - d < 0 then []
    else (surfaceY - d, fillT) :: blockFills surfaceY fillT rem (d + 1)

/-- One column of `blockifyTerrain`: skip when the elevation is below the
water level `WATER_Y = 2.0`, else one surface block plus up to
`DEPTH - 1 = 2` fill blocks. -/
noncomputable def blockifyColumn (h : ℝ) : List (ℝ × ℕ) :=
  if h * 30 < 2 then []
  else ((⌊h * 30⌋ : ℝ) + 0.5, (surfFill h).1)
    :: blockFills ((⌊h * 30⌋ : ℝ) + 0.5) (surfFill h).2 2 1

/-- The column at integer grid coordinates `(ix, iz)`, sampling the shared
height field with `halfSize = 100`. -/
noncomputable def blockifyColumnAt (noise : ℝ → ℝ → ℝ) (ix iz : ℤ) : List (ℝ × ℕ) :=
  blockifyColumn (sampleHeight noise ix iz 100)

lemma blockFills_zero (s : ℝ) (ft : ℕ) (d : ℕ) : blockFills s ft 0 d = [] := rfl

lemma blockFills_succ (s : ℝ) (ft : ℕ) (rem d : ℕ) :
    blockFills s ft (rem + 1) d
      = if s - d < 0 then [] else (s - d, ft) :: blockFills s ft rem (d + 1) := rfl

lemma blockifyColumn_high (h : ℝ) (hge : 2 ≤ h * 30) :
    blockifyColumn h
      = [((⌊h * 30⌋ : ℝ) + 0.5, (surfFill h).1),
         ((⌊h * 30⌋ : ℝ) + 0.5 - 1, (surfFill h).2),
         ((⌊h * 30⌋ : ℝ) + 0.5 - 2, (surfFill h).2)] := by
  have hfl : (2 : ℤ) ≤ ⌊h * 30⌋ := Int.le_floor.mpr (by exact_mod_cast hge)
  have hflR : (2 : ℝ) ≤ (⌊h * 30⌋ : ℝ) := by exact_mod_cast hfl
  unfold blockifyColumn
  rw [if_neg (not_lt.mpr hge)]
  rw [show (2 : ℕ) = 1 + 1 from rfl, blockFills_succ]
  rw [if_neg (by push_cast; linarith)]
  rw [show (1 : ℕ) = 0 + 1 from rfl, blockFills_succ, blockFills_zero]
  rw [if_neg (by push_cast; linarith)]
  push_cast
  norm_num

/-- Claim C6: for every integer column in the map extent, the voxelizer
emits nothing when the elevation `height*30` is below the water level 2;
otherwise it emits exactly one surface block whose cell is
`floor(elevation)` (center `floor(elevation) + 0.5`) with the
band-determined surface material, followed by exactly `DEPTH - 1 = 2` fill
blocks directly beneath it, every emitted y-center being non-negative (the
`fy < 0` early stop never fires above water); the bands are sand below
0.15, grass over dirt up to 0.45, stone from 0.45 on. -/
theorem blockifyColumnAt_spec (noise : ℝ → ℝ → ℝ) (ix iz : ℤ) :
    (sampleHeight noise ix iz 100 * 30 < 2 → blockifyColumnAt noise ix iz = [])
    ∧ (2 ≤ sampleHeight noise ix iz 100 * 30 →
        blockifyColumnAt noise ix iz
          = [((⌊sampleHeight noise ix iz 100 * 30⌋ : ℝ) + 0.5,
                (surfFill (sampleHeight noise ix iz 100)).1),
             ((⌊sampleHeight noise ix iz 100 * 30⌋ : ℝ) + 0.5 - 1,
                (surfFill (sampleHeight noise ix iz 100)).2),
             ((⌊sampleHeight noise ix iz 100 * 30⌋ : ℝ) + 0.5 - 2,
                (surfFill (sampleHeight noise ix iz 100)).2)]
        ∧ ∀ v ∈ blockifyColumnAt noise ix iz, 0 ≤ v.1)
    ∧ (sampleHeight noise ix iz 100 < 0.15
        → surfFill (sampleHeight noise ix iz 100) = (4, 4))
    ∧ (0.15 ≤ sampleHeight noise ix iz 100 → sampleHeight noise ix iz 100 < 0.45
        → surfFill (sampleHeight noise ix iz 100) = (1, 0))
    ∧ (0.45 ≤ sampleHeight noise ix iz 100
        → surfFill (sampleHeight noise ix iz 100) = (2, 2)) := by
  set h := sampleHeight noise ix iz 100 with hh
  refine ⟨?_, ?_, ?_, ?_, ?_⟩
  · intro hlt
    unfold blockifyColumnAt blockifyColumn
    rw [← hh, if_pos hlt]
  · intro hge
    have he : blockifyColumnAt noise ix iz
        = [((⌊h * 30⌋ : ℝ) + 0.5, (surfFill h).1),
           ((⌊h * 30⌋ : ℝ) + 0.5 - 1, (surfFill h).2),
           ((⌊h * 30⌋ : ℝ) + 0.5 - 2, (surfFill h).2)] := by
      unfold blockifyColumnAt
      rw [← hh]
      exact blockifyColumn_high h hge
    have hfl : (2 : ℤ) ≤ ⌊h * 30⌋ := Int.le_floor.mpr (by exact_mod_cast hge)
    have hflR : (2 : ℝ) ≤ (⌊h * 30⌋ : ℝ) := by exact_mod_cast hfl
    refine ⟨he, ?_⟩
    intro v hv
    rw [he] at hv
    simp only [List.mem_cons, List.not_mem_nil, or_false] at hv
    rcases hv with hv | hv | hv <;> (rw [hv]; dsimp only; linarith)
  · intro hlt
    unfold surfFill
    rw [if_pos hlt]
  · intro hge hlt
    unfold surfFill
    rw [if_neg (not_lt.mpr hge), if_pos hlt]
  · intro hge
    unfold surfFill
    rw [if_neg (by linarith : ¬h < 0.15), if_neg (not_lt.mpr hge)]

/-! ## Scatter placement (terrain.js `createTrees`, `createRocks`,
`createFlowers`)

The mulberry32 stream is a parameter `rng : ℕ → ℝ` consumed at explicit
indices in exactly the order the source calls `rng()`: index 0 for the
attempt count, then per attempt two samples for (x, z); a rejected attempt
(`continue`) consumes no further values, an accepted one consumes the
kind-specific scale/rotation values.  Each loop is modelled with the
remaining attempt count as fuel and the current stream index. -/

/-- The shared sample position `(rng() - 0.5) * size * 0.85`. -/
noncomputable def scatterX (rng : ℕ → ℝ) (size : ℝ) (i : ℕ) : ℝ :=
  (rng i - 0.5) * size * 0.85

/-- One tree: trunk and foliage y as set by `createTrees`. -/
structure TreeInst where
  x : ℝ
  z : ℝ
  trunkY : ℝ
  foliageY : ℝ
  scl : ℝ
  rotY : ℝ

/-- The `createTrees` attempt loop: reject when the height leaves the band
[0.12, 0.48], else place a tree at elevation `h * 30` with scale
`0.7 + rng() * 0.8`. -/
noncomputable def treesLoop (rng : ℕ → ℝ) (noise : ℝ → ℝ → ℝ) (size : ℝ) :
    ℕ → ℕ → List TreeInst
  | 0, _ => []
  | n + 1, idx =>
    if sampleHeight noise (scatterX rng size idx) (scatterX rng size (idx + 1)) (size / 2) < 0.12
        ∨ 0.48 < sampleHeight noise (scatterX rng size idx) (scatterX rng size (idx + 1)) (size / 2)
    then treesLoop rng noise size n (idx + 2)
    else
      { x := scatterX rng size idx
        z := scatterX rng size (idx + 1)
        trunkY := sampleHeight noise (scatterX rng size idx) (scatterX rng size (idx + 1)) (size / 2)
            * 30 + 0.75 * (0.7 + rng (idx + 2) * 0.8)
        foliageY := sampleHeight noise (scatterX rng size idx) (scatterX rng size (idx + 1)) (size / 2)
            * 30 + 2.2 * (0.7 + rng (idx + 2) * 0.8)
        scl := 0.7 + rng (idx + 2) * 0.8
        rotY := rng (idx + 3) * Real.pi * 2 }
      :: treesLoop rng noise size n (idx + 4)

/-- `Math.floor(150 + rng() * 100)`: the tree attempt count. -/
noncomputable def treeCount (rng : ℕ → ℝ) : ℕ := (⌊(150 : ℝ) + rng 0 * 100⌋).toNat

/-- terrain.js `createTrees`. -/
noncomputable def createTrees (rng : ℕ → ℝ) (noise : ℝ → ℝ → ℝ) (size : ℝ) :
    List TreeInst :=
  treesLoop rng noise size (treeCount rng) 1

/-- One rock, with position, base scale `s`, scale triple and rotation
triple as set by `createRocks`. -/
structure RockInst where
  x : ℝ
  z : ℝ
  y : ℝ
  s : ℝ
  sclX : ℝ
  sclY : ℝ
  sclZ : ℝ
  rotX : ℝ
  rotY : ℝ
  rotZ : ℝ

/-- The `createRocks` attempt loop: band [0.42, 0.88], rock base at
`elevation + s * 0.3` with `s = 0.3 + rng() * 1.0`. -/
noncomputable def rocksLoop (rng : ℕ → ℝ) (noise : ℝ → ℝ → ℝ) (size : ℝ) :
    ℕ → ℕ → List RockInst
  | 0, _ => []
  | n + 1, idx =>
    if sampleHeight noise (scatterX rng size idx) (scatterX rng size (idx + 1)) (size / 2) < 0.42
        ∨ 0.88 < sampleHeight noise (scatterX rng size idx) (scatterX rng size (idx + 1)) (size / 2)
    then rocksLoop rng noise size n (idx + 2)
    else
      { x := scatterX rng size idx
        z := scatterX rng size (idx + 1)
        y := sampleHeight noise (scatterX rng size idx) (scatterX rng size (idx + 1)) (size / 2)
            * 30 + (0.3 + rng (idx + 2) * 1.0) * 0.3
        s := 0.3 + rng (idx + 2) * 1.0
        sclX := (0.3 + rng (idx + 2) * 1.0) * (0.8 + rng (idx + 3) * 0.4)
        sclY := (0.3 + rng (idx + 2) * 1.0) * (0.5 + rng (idx + 4) * 0.5)
        sclZ := (0.3 + rng (idx + 2) * 1.0) * (0.8 + rng (idx + 5) * 0.4)
        rotX := rng (idx + 6) * 0.5
        rotY := rng (idx + 7) * Real.pi * 2
        rotZ := rng (idx + 8) * 0.5 }
      :: rocksLoop rng noise size n (idx + 9)

/-- `Math.floor(80 + rng() * 60)`: the rock attempt count. -/
noncomputable def rockCount (rng : ℕ → ℝ) : ℕ := (⌊(80 : ℝ) + rng 0 * 60⌋).toNat

/-- terrain.js `createRocks`. -/
noncomputable def createRocks (rng : ℕ → ℝ) (noise : ℝ → ℝ → ℝ) (size : ℝ) :
    List RockInst :=
  rocksLoop rng noise size (rockCount rng) 1

/-- One wildflower: the stem base position and scale; the petal meshes
share the instance's base position with deterministic angular offsets. -/
structure FlowerInst where
  x : ℝ
  z : ℝ
  stemY : ℝ
  scl : ℝ
  colorIdx : ℤ
  petals : ℤ

/-- The `createFlowers` attempt loop: band [0.13, 0.43], stem base at
`elevation + 0.2 * flowerScale`, `flowerScale = 0.6 + rng() * 0.8`,
color index `floor(rng() * 6)` and `3 + floor(rng() * 3)` petals. -/
noncomputable def flowersLoop (rng : ℕ → ℝ) (noise : ℝ → ℝ → ℝ) (size : ℝ) :
    ℕ → ℕ → List FlowerInst
  | 0, _ => []
  | n + 1, idx =>
    if sampleHeight noise (scatterX rng size idx) (scatterX rng size (idx + 1)) (size / 2) < 0.13
        ∨ 0.43 < sampleHeight noise (scatterX rng size idx) (scatterX rng size (idx + 1)) (size / 2)
    then flowersLoop rng noise size n (idx + 2)
    else
      { x := scatterX rng size idx
        z := scatterX rng size (idx + 1)
        stemY := sampleHeight noise (scatterX rng size idx) (scatterX rng size (idx + 1)) (size / 2)
            * 30 + 0.2 * (0.6 + rng (idx + 2) * 0.8)
        scl := 0.6 + rng (idx + 2) * 0.8
        colorIdx := ⌊rng (idx + 3) * 6⌋
        petals := 3 + ⌊rng (idx + 4) * 3⌋ }
      :: flowersLoop rng noise size n (idx + 5)

/-- `Math.floor(200 + rng() * 150)`: the flower attempt count. -/
noncomputable def flowerCount (rng : ℕ → ℝ) : ℕ := (⌊(200 : ℝ) + rng 0 * 150⌋).toNat

/-- terrain.js `createFlowers`. -/
noncomputable def createFlowers (rng : ℕ → ℝ) (noise : ℝ → ℝ → ℝ) (size : ℝ) :
    List FlowerInst :=
  flowersLoop rng noise size (flowerCount rng) 1

lemma scatterX_abs (rng : ℕ → ℝ) (i : ℕ) (h0 : 0 ≤ rng i) (h1 : rng i < 1) :
    |scatterX rng 200 i| ≤ 85 := by
  unfold scatterX
  rw [abs_le]
  constructor <;> nlinarith

lemma treesLoop_sound (rng : ℕ → ℝ) (noise : ℝ → ℝ → ℝ)
    (hr : ∀ i, 0 ≤ rng i ∧ rng i < 1) :
    ∀ n idx : ℕ, (treesLoop rng noise 200 n idx).length ≤ n
      ∧ ∀ t ∈ treesLoop rng noise 200 n idx,
          0.12 ≤ sampleHeight noise t.x t.z (200 / 2)
          ∧ sampleHeight noise t.x t.z (200 / 2) ≤ 0.48
          ∧ |t.x| ≤ 85 ∧ |t.z| ≤ 85
          ∧ t.trunkY = sampleHeight noise t.x t.z (200 / 2) * 30 + 0.75 * t.scl
          ∧ t.foliageY = sampleHeight noise t.x t.z (200 / 2) * 30 + 2.2 * t.scl
          ∧ 0.7 ≤ t.scl ∧ t.scl < 1.5 := by
  intro n
  induction n with
  | zero => intro idx; simp [treesLoop]
  | succ n ih =>
    intro idx
    by_cases hband :
        sampleHeight noise (scatterX rng 200 idx) (scatterX rng 200 (idx + 1)) (200 / 2) < 0.12
        ∨ 0.48 < sampleHeight noise (scatterX rng 200 idx) (scatterX rng 200 (idx + 1)) (200 / 2)
    · have e : treesLoop rng noise 200 (n + 1) idx = treesLoop rng noise 200 n (idx + 2) := by
        simp only [treesLoop, if_pos hband]
      rw [e]
      exact ⟨le_trans (ih (idx + 2)).1 (Nat.le_succ n), (ih (idx + 2)).2⟩
    · have e : treesLoop rng noise 200 (n + 1) idx
          = { x := scatterX rng 200 idx
              z := scatterX rng 200 (idx + 1)
              trunkY := sampleHeight noise (scatterX rng 200 idx) (scatterX rng 200 (idx + 1))
                  (200 / 2) * 30 + 0.75 * (0.7 + rng (idx + 2) * 0.8)
              foliageY := sampleHeight noise (scatterX rng 200 idx) (scatterX rng 200 (idx + 1))
                  (200 / 2) * 30 + 2.2 * (0.7 + rng (idx + 2) * 0.8)
              scl := 0.7 + rng (idx + 2) * 0.8
              rotY := rng (idx + 3) * Real.pi * 2 }
            :: treesLoop rng noise 200 n (idx + 4) := by
        simp only [treesLoop, if_neg hband]
      rw [e]
      push_neg at hband
      obtain ⟨hb1, hb2⟩ := hband
      refine ⟨?_, ?_⟩
      · simp only [List.length_cons]
        exact Nat.succ_le_succ (ih (idx + 4)).1
      · intro t ht
        rcases List.mem_cons.mp ht with h | h
        · subst h
          exact ⟨hb1, hb2, scatterX_abs rng idx (hr idx).1 (hr idx).2,
            scatterX_abs rng (idx + 1) (hr (idx + 1)).1 (hr (idx + 1)).2,
            rfl, rfl, by nlinarith [(hr (idx + 2)).1], by nlinarith [(hr (idx + 2)).2]⟩
        · exact (ih (idx + 4)).2 t h

lemma rocksLoop_sound (rng : ℕ → ℝ) (noise : ℝ → ℝ → ℝ)
    (hr : ∀ i, 0 ≤ rng i ∧ rng i < 1) :
    ∀ n idx : ℕ, (rocksLoop rng noise 200 n idx).length ≤ n
      ∧ ∀ r ∈ rocksLoop rng noise 200 n idx,
          0.42 ≤ sampleHeight noise r.x r.z (200 / 2)
          ∧ sampleHeight noise r.x r.z (200 / 2) ≤ 0.88
          ∧ |r.x| ≤ 85 ∧ |r.z| ≤ 85
          ∧ r.y = sampleHeight noise r.x r.z (200 / 2) * 30 + r.s * 0.3
          ∧ 0.3 ≤ r.s ∧ r.s < 1.3 := by
  intro n
  induction n with
  | zero => intro idx; simp [rocksLoop]
  | succ n ih =>
    intro idx
    by_cases hband :
        sampleHeight noise (scatterX rng 200 idx) (scatterX rng 200 (idx + 1)) (200 / 2) < 0.42
        ∨ 0.88 < sampleHeight noise (scatterX rng 200 idx) (scatterX rng 200 (idx + 1)) (200 / 2)
    · have e : rocksLoop rng noise 200 (n + 1) idx = rocksLoop rng noise 200 n (idx + 2) := by
        simp only [rocksLoop, if_pos hband]
      rw [e]
      exact ⟨le_trans (ih (idx + 2)).1 (Nat.le_succ n), (ih (idx + 2)).2⟩
    · have e : rocksLoop rng noise 200 (n + 1) idx
          = { x := scatterX rng 200 idx
              z := scatterX rng 200 (idx + 1)
              y := sampleHeight noise (scatterX rng 200 idx) (scatterX rng 200 (idx + 1))
                  (200 / 2) * 30 + (0.3 + rng (idx + 2) * 1.0) * 0.3
              s := 0.3 + rng (idx + 2) * 1.0
              sclX := (0.3 + rng (idx + 2) * 1.0) * (0.8 + rng (idx + 3) * 0.4)
              sclY := (0.3 + rng (idx + 2) * 1.0) * (0.5 + rng (idx + 4) * 0.5)
              sclZ := (0.3 + rng (idx + 2) * 1.0) * (0.8 + rng (idx + 5) * 0.4)
              rotX := rng (idx + 6) * 0.5
              rotY := rng (idx + 7) * Real.pi * 2
              rotZ := rng (idx + 8) * 0.5 }
            :: rocksLoop rng noise 200 n (idx + 9) := by
        simp only [rocksLoop, if_neg hband]
      rw [e]
      push_neg at hband
      obtain ⟨hb1, hb2⟩ := hband
      refine ⟨?_, ?_⟩
      · simp only [List.length_cons]
        exact Nat.succ_le_succ (ih (idx + 9)).1
      · intro r hmem
        rcases List.mem_cons.mp hmem with h | h
        · subst h
          exact ⟨hb1, hb2, scatterX_abs rng idx (hr idx).1 (hr idx).2,
            scatterX_abs rng (idx + 1) (hr (idx + 1)).1 (hr (idx + 1)).2,
            rfl, by nlinarith [(hr (idx + 2)).1], by nlinarith [(hr (idx + 2)).2]⟩
        · exact (ih (idx + 9)).2 r h

lemma flowersLoop_sound (rng : ℕ → ℝ) (noise : ℝ → ℝ → ℝ)
    (hr : ∀ i, 0 ≤ rng i ∧ rng i < 1) :
    ∀ n idx : ℕ, (flowersLoop rng noise 200 n idx).length ≤ n
      ∧ ∀ f ∈ flowersLoop rng noise 200 n idx,
          0.13 ≤ sampleHeight noise f.x f.z (200 / 2)
          ∧ sampleHeight noise f.x f.z (200 / 2) ≤ 0.43
          ∧ |f.x| ≤ 85 ∧ |f.z| ≤ 85
          ∧ f.stemY = sampleHeight noise f.x f.z (200 / 2) * 30 + 0.2 * f.scl
          ∧ 0.6 ≤ f.scl ∧ f.scl < 1.4
          ∧ 3 ≤ f.petals ∧ f.petals ≤ 5 := by
  intro n
  induction n with
  | zero => intro idx; simp [flowersLoop]
  | succ n ih =>
    intro idx
    by_cases hband :
        sampleHeight noise (scatterX rng 200 idx) (scatterX rng 200 (idx + 1)) (200 / 2) < 0.13
        ∨ 0.43 < sampleHeight noise (scatterX rng 200 idx) (scatterX rng 200 (idx + 1)) (200 / 2)
    · have e : flowersLoop rng noise 200 (n + 1) idx = flowersLoop rng noise 200 n (idx + 2) := by
        simp only [flowersLoop, if_pos hband]
      rw [e]
      exact ⟨le_trans (ih (idx + 2)).1 (Nat.le_succ n), (ih (idx + 2)).2⟩
    · have e : flowersLoop rng noise 200 (n + 1) idx
          = { x := scatterX rng 200 idx
              z := scatterX rng 200 (idx + 1)
              stemY := sampleHeight noise (scatterX rng 200 idx) (scatterX rng 200 (idx + 1))
                  (200 / 2) * 30 + 0.2 * (0.6 + rng (idx + 2) * 0.8)
              scl := 0.6 + rng (idx + 2) * 0.8
              colorIdx := ⌊rng (idx + 3) * 6⌋
              petals := 3 + ⌊rng (idx + 4) * 3⌋ }
            :: flowersLoop rng noise 200 n (idx + 5) := by
        simp only [flowersLoop, if_neg hband]
      rw [e]
      push_neg at hband
      obtain ⟨hb1, hb2⟩ := hband
      refine ⟨?_, ?_⟩
      · simp only [List.length_cons]
        exact Nat.succ_le_succ (ih (idx + 5)).1
      · intro f hmem
        rcases List.mem_cons.mp hmem with h | h
        · subst h
          refine ⟨hb1, hb2, scatterX_abs rng idx (hr idx).1 (hr idx).2,
            scatterX_abs rng (idx + 1) (hr (idx + 1)).1 (hr (idx + 1)).2,
            rfl, by nlinarith [(hr (idx + 2)).1], by nlinarith [(hr (idx + 2)).2], ?_, ?_⟩
          · show (3 : ℤ) ≤ 3 + ⌊rng (idx + 4) * 3⌋
            have : (0 : ℤ) ≤ ⌊rng (idx + 4) * 3⌋ :=
              Int.le_floor.mpr (by push_cast; nlinarith [(hr (idx + 4)).1])
            omega
          · show (3 : ℤ) + ⌊rng (idx + 4) * 3⌋ ≤ 5
            have : ⌊rng (idx + 4) * 3⌋ < 3 :=
              Int.floor_lt.mpr (by push_cast; nlinarith [(hr (idx + 4)).2])
            omega
        · exact (ih (idx + 5)).2 f h

lemma treeCount_bounds (rng : ℕ → ℝ) (hr : ∀ i, 0 ≤ rng i ∧ rng i < 1) :
    150 ≤ treeCount rng ∧ treeCount rng ≤ 249 := by
  obtain ⟨h0, h1⟩ := hr 0
  have hA : (150 : ℤ) ≤ ⌊(150 : ℝ) + rng 0 * 100⌋ :=
    Int.le_floor.mpr (by push_cast; nlinarith)
  have hB : ⌊(150 : ℝ) + rng 0 * 100⌋ < 250 :=
    Int.floor_lt.mpr (by push_cast; nlinarith)
  unfold treeCount
  omega

lemma rockCount_bounds (rng : ℕ → ℝ) (hr : ∀ i, 0 ≤ rng i ∧ rng i < 1) :
    80 ≤ rockCount rng ∧ rockCount rng ≤ 139 := by
  obtain ⟨h0, h1⟩ := hr 0
  have hA : (80 : ℤ) ≤ ⌊(80 : ℝ) + rng 0 * 60⌋ :=
    Int.le_floor.mpr (by push_cast; nlinarith)
  have hB : ⌊(80 : ℝ) + rng 0 * 60⌋ < 140 :=
    Int.floor_lt.mpr (by push_cast; nlinarith)
  unfold rockCount
  omega

lemma flowerCount_bounds (rng : ℕ → ℝ) (hr : ∀ i, 0 ≤ rng i ∧ rng i < 1) :
    200 ≤ flowerCount rng ∧ flowerCount rng ≤ 349 := by
  obtain ⟨h0, h1⟩ := hr 0
  have hA : (200 : ℤ) ≤ ⌊(200 : ℝ) + rng 0 * 150⌋ :=
    Int.le_floor.mpr (by push_cast; nlinarith)
  have hB : ⌊(200 : ℝ) + rng 0 * 150⌋ < 350 :=
    Int.floor_lt.mpr (by push_cast; nlinarith)
  unfold flowerCount
  omega

/-- A concrete mulberry32-style stream that constantly returns 0.95; every
sampled (x, z) then lands at (76.5, 76.5), outside the island falloff. -/
noncomputable def cexRng : ℕ → ℝ := fun _ => 0.95

/-- A concrete noise function. -/
noncomputable def cexNoise : ℝ → ℝ → ℝ := fun _ _ => 0

lemma cex_h_zero (i j : ℕ) :
    sampleHeight cexNoise (scatterX cexRng 200 i) (scatterX cexRng 200 j) (200 / 2) = 0 := by
  apply sampleHeight_zero_of_far
  simp only [scatterX, cexRng]
  norm_num

lemma cex_treesLoop_nil : ∀ n idx : ℕ, treesLoop cexRng cexNoise 200 n idx = [] := by
  intro n
  induction n with
  | zero => intro idx; rfl
  | succ n ih =>
    intro idx
    have hband :
        sampleHeight cexNoise (scatterX cexRng 200 idx) (scatterX cexRng 200 (idx + 1)) (200 / 2)
          < 0.12
        ∨ 0.48 < sampleHeight cexNoise (scatterX cexRng 200 idx) (scatterX cexRng 200 (idx + 1))
            (200 / 2) := by
      left
      rw [cex_h_zero]
      norm_num
    have e : treesLoop cexRng cexNoise 200 (n + 1) idx
        = treesLoop cexRng cexNoise 200 n (idx + 2) := by
      simp only [treesLoop, if_pos hband]
    rw [e]
    exact ih (idx + 2)

/-- Counterexample to claim C3 as stated: with the concrete stream
`cexRng` (uniformly 0.95) and noise `cexNoise`, every tree attempt samples
(76.5, 76.5), whose height is 0 (island falloff), so the tree pass places
0 instances — below the claimed minimum count of 150. -/
theorem createTrees_count_below_min :
    (createTrees cexRng cexNoise 200).length = 0
    ∧ ¬(150 ≤ (createTrees cexRng cexNoise 200).length) := by
  have e : createTrees cexRng cexNoise 200 = [] :=
    cex_treesLoop_nil (treeCount cexRng) 1
  rw [e]
  exact ⟨rfl, by norm_num⟩

/-- Claim C3 as amended: each decoration kind's scatter pass makes a number
of *attempts* within the kind's count range (trees 150-249, rocks 80-139,
flowers 200-349) and places at most that many instances (rejected samples
are skipped, not retried, so the instance count can fall below the
minimum); every placed instance lies at a sampled (x, z) within the 0.85
fraction of the map extent, its height is inside the kind's band, and its
elevation is `height * 30` plus the kind-specific offset
(0.75*scale for tree trunks, s*0.3 for rocks, 0.2*scale for flower stems),
with scales in the kind-specific ranges. -/
theorem scatter_pass_spec (rngT rngR rngF : ℕ → ℝ) (noise : ℝ → ℝ → ℝ)
    (hT : ∀ i, 0 ≤ rngT i ∧ rngT i < 1)
    (hR : ∀ i, 0 ≤ rngR i ∧ rngR i < 1)
    (hF : ∀ i, 0 ≤ rngF i ∧ rngF i < 1) :
    (150 ≤ treeCount rngT ∧ treeCount rngT ≤ 249
      ∧ (createTrees rngT noise 200).length ≤ treeCount rngT
      ∧ ∀ t ∈ createTrees rngT noise 200,
          0.12 ≤ sampleHeight noise t.x t.z (200 / 2)
          ∧ sampleHeight noise t.x t.z (200 / 2) ≤ 0.48
          ∧ |t.x| ≤ 85 ∧ |t.z| ≤ 85
          ∧ t.trunkY = sampleHeight noise t.x t.z (200 / 2) * 30 + 0.75 * t.scl
          ∧ t.foliageY = sampleHeight noise t.x t.z (200 / 2) * 30 + 2.2 * t.scl
          ∧ 0.7 ≤ t.scl ∧ t.scl < 1.5)
    ∧ (80 ≤ rockCount rngR ∧ rockCount rngR ≤ 139
      ∧ (createRocks rngR noise 200).length ≤ rockCount rngR
      ∧ ∀ r ∈ createRocks rngR noise 200,
          0.42 ≤ sampleHeight noise r.x r.z (200 / 2)
          ∧ sampleHeight noise r.x r.z (200 / 2) ≤ 0.88
          ∧ |r.x| ≤ 85 ∧ |r.z| ≤ 85
          ∧ r.y = sampleHeight noise r.x r.z (200 / 2) * 30 + r.s * 0.3
          ∧ 0.3 ≤ r.s ∧ r.s < 1.3)
    ∧ (200 ≤ flowerCount rngF ∧ flowerCount rngF ≤ 349
      ∧ (createFlowers rngF noise 200).length ≤ flowerCount rngF
      ∧ ∀ f ∈ createFlowers rngF noise 200,
          0.13 ≤ sampleHeight noise f.x f.z (200 / 2)
          ∧ sampleHeight noise f.x f.z (200 / 2) ≤ 0.43
          ∧ |f.x| ≤ 85 ∧ |f.z| ≤ 85
          ∧ f.stemY = sampleHeight noise f.x f.z (200 / 2) * 30 + 0.2 * f.scl
          ∧ 0.6 ≤ f.scl ∧ f.scl < 1.4
          ∧ 3 ≤ f.petals ∧ f.petals ≤ 5) := by
  obtain ⟨hT1, hT2⟩ := treeCount_bounds rngT hT
  obtain ⟨hR1, hR2⟩ := rockCount_bounds rngR hR
  obtain ⟨hF1, hF2⟩ := flowerCount_bounds rngF hF
  refine ⟨⟨hT1, hT2, ?_, ?_⟩, ⟨hR1, hR2, ?_, ?_⟩, ⟨hF1, hF2, ?_, ?_⟩⟩
  · exact (treesLoop_sound rngT noise hT (treeCount rngT) 1).1
  · exact (treesLoop_sound rngT noise hT (treeCount rngT) 1).2
  · exact (rocksLoop_sound rngR noise hR (rockCount rngR) 1).1
  · exact (rocksLoop_sound rngR noise hR (rockCount rngR) 1).2
  · exact (flowersLoop_sound rngF noise hF (flowerCount rngF) 1).1
  · exact (flowersLoop_sound rngF noise hF (flowerCount rngF) 1).2

/-- Witness for the amended C3 at the constant-zero stream and noise. -/
theorem scatter_pass_spec_witness :
    150 ≤ treeCount (fun _ => 0)
    ∧ (createTrees (fun _ => 0) (fun _ _ => 0) 200).length ≤ treeCount (fun _ => 0)
    ∧ 80 ≤ rockCount (fun _ => 0)
    ∧ 200 ≤ flowerCount (fun _ => 0) := by
  have h := scatter_pass_spec (fun _ => 0) (fun _ => 0) (fun _ => 0) (fun _ _ => 0)
    (fun _ => by norm_num) (fun _ => by norm_num) (fun _ => by norm_num)
  exact ⟨h.1.1, h.1.2.2.1, h.2.1.1, h.2.2.1⟩
